import Mathlib

/-!
Shallow embedding of the NEOATTEND attendance logic: the status-derivation rule and the
aggregation computations duplicated across the dashboard screens, together with the
attendance-marking flow over the stored collections.

Timestamps are modelled as a calendar day index plus milliseconds within the day;
`toDateString()` equality in the source corresponds to equality of the `day` field and
`getTime()` to the derived millisecond count.
-/

/-- Attendance status stored on a record. -/
inductive Status where
  | present
  | late
  | absent
deriving DecidableEq

/-- Trend classification produced by the student monitoring screen. -/
inductive Trend where
  | improving
  | declining
  | stable
deriving DecidableEq

/-- Calendar timestamp: local day index since the epoch plus milliseconds within the day. -/
structure Date where
  day : Int
  msOfDay : Nat
deriving DecidableEq

/-- Milliseconds since the epoch, as produced by `getTime()`. -/
def Date.getTime (d : Date) : Int := d.day * 86400000 + (d.msOfDay : Int)

/-- Hour of the day, as produced by `getHours()`. -/
def Date.getHours (d : Date) : Nat := d.msOfDay / 3600000

/-- Minute within the hour, as produced by `getMinutes()`. -/
def Date.getMinutes (d : Date) : Nat := d.msOfDay / 60000 % 60

/-- Day of the week as produced by `getDay()`: 0 is Sunday; epoch day 0 (1970-01-01) is a
Thursday. -/
def Date.getDay (d : Date) : Int := (d.day + 4).emod 7

/-- Registered person, keeping the fields the aggregation screens read. -/
structure Student where
  id : String
  role : String
deriving DecidableEq

/-- Stored attendance record, keeping the fields the aggregation screens read. -/
structure AttendanceRecord where
  studentId : String
  timestamp : Date
  status : Status
  confidence : ℚ
deriving DecidableEq

/-! ### Dashboard (`loadDashboardData`, faculty branch) -/

/-- Dashboard statistics (`DashboardStats` in the source). -/
structure DashboardStats where
  totalStudents : Nat
  presentToday : Nat
  lateToday : Nat
  absentToday : Int
  attendanceRate : ℚ
deriving DecidableEq

/-- Embedding of the faculty branch of `loadDashboardData`: counts over today's records and
the rate `presentToday / students.length * 100` (0 when there are no students). -/
def loadDashboardData (students : List Student) (todayAttendance : List AttendanceRecord) :
    DashboardStats :=
  let presentToday := (todayAttendance.filter (fun r => decide (r.status = Status.present))).length
  let lateToday := (todayAttendance.filter (fun r => decide (r.status = Status.late))).length
  let absentToday : Int := (students.length : Int) - ((presentToday : Int) + (lateToday : Int))
  { totalStudents := students.length
    presentToday := presentToday
    lateToday := lateToday
    absentToday := absentToday
    attendanceRate :=
      if 0 < students.length then ((presentToday : ℚ) / (students.length : ℚ)) * 100 else 0 }

/-! ### Faculty analytics session (`loadTodaySession` and `calculateStats`) -/

/-- How a session row was marked. -/
inductive MarkedBy where
  | faceRecognition
  | manual
  | notMarked
deriving DecidableEq

/-- Per-student view of today's session (`TodaySessionStudent`). -/
structure TodaySessionStudent where
  student : Student
  status : Status
  markedBy : MarkedBy
  timestamp : Option Date
  confidence : Option ℚ
deriving DecidableEq

/-- One `Map.set` step of the per-student attendance map, with the insertion-order
semantics of a JS `Map`: an existing key is updated in place, a new key is appended. -/
def mapSet (m : List (String × AttendanceRecord)) (k : String) (v : AttendanceRecord) :
    List (String × AttendanceRecord) :=
  match m with
  | [] => [(k, v)]
  | (k', v') :: rest => if k' = k then (k, v) :: rest else (k', v') :: mapSet rest k v

/-- `Map.get` on the insertion-ordered map. -/
def mapGet (m : List (String × AttendanceRecord)) (k : String) : Option AttendanceRecord :=
  (m.find? (fun p => decide (p.1 = k))).map (·.2)

/-- The `attendanceMap` built by `loadTodaySession` from today's records. -/
def buildAttendanceMap (records : List AttendanceRecord) : List (String × AttendanceRecord) :=
  records.foldl (fun m r => mapSet m r.studentId r) []

/-- Embedding of `loadTodaySession`: one session row per registered student, taking the
mapped record when present and an Absent row otherwise. -/
def loadTodaySession (students : List Student) (todayAttendance : List AttendanceRecord) :
    List TodaySessionStudent :=
  let allStudents := students.filter (fun s => decide (s.role = "student"))
  let attendanceMap := buildAttendanceMap todayAttendance
  allStudents.map (fun student =>
    match mapGet attendanceMap student.id with
    | some record =>
      { student := student
        status := record.status
        markedBy := if record.confidence = 1 then MarkedBy.manual else MarkedBy.faceRecognition
        timestamp := some record.timestamp
        confidence := some record.confidence }
    | none =>
      { student := student
        status := Status.absent
        markedBy := MarkedBy.notMarked
        timestamp := none
        confidence := none })

/-- Session statistics (`stats` state of FacultyAnalytics). -/
structure SessionStats where
  total : Nat
  recognized : Nat
  notRecognized : Nat
  present : Nat
  late : Nat
  absent : Nat
  recognitionRate : ℚ
  attendanceRate : ℚ
deriving DecidableEq

/-- Embedding of `calculateStats` of FacultyAnalytics: counts over the session rows, with
`attendanceRate = (present + late) / total * 100` (0 when `total` is 0). -/
def calculateStats (data : List TodaySessionStudent) : SessionStats :=
  let total := data.length
  let recognized := (data.filter (fun d => decide (d.markedBy = MarkedBy.faceRecognition))).length
  let notRecognized := (data.filter (fun d => decide (d.markedBy = MarkedBy.notMarked))).length
  let present := (data.filter (fun d => decide (d.status = Status.present))).length
  let late := (data.filter (fun d => decide (d.status = Status.late))).length
  let absent := (data.filter (fun d => decide (d.status = Status.absent))).length
  { total := total
    recognized := recognized
    notRecognized := notRecognized
    present := present
    late := late
    absent := absent
    recognitionRate := if 0 < total then ((recognized : ℚ) / (total : ℚ)) * 100 else 0
    attendanceRate :=
      if 0 < total then (((present : ℚ) + (late : ℚ)) / (total : ℚ)) * 100 else 0 }

/-! ### Student monitoring (`calculateStudentStats`) -/

/-- Whole days elapsed between a record and `now`, as computed with `Math.floor` over
millisecond differences in `calculateStudentStats`. -/
def daysAgo (now : Date) (r : AttendanceRecord) : Int :=
  (now.getTime - r.timestamp.getTime).fdiv 86400000

/-- Records of the recent comparison window (`daysAgo <= 7`). -/
def windowRecent (now : Date) (l : List AttendanceRecord) : List AttendanceRecord :=
  l.filter (fun r => decide (daysAgo now r ≤ 7))

/-- Records of the prior comparison window (`daysAgo > 7 && daysAgo <= 14`). -/
def windowPrior (now : Date) (l : List AttendanceRecord) : List AttendanceRecord :=
  l.filter (fun r => decide (7 < daysAgo now r) && decide (daysAgo now r ≤ 14))

/-- Non-absent percentage of a window, 0 for an empty window. -/
def windowRate (l : List AttendanceRecord) : ℚ :=
  if 0 < l.length then
    ((l.filter (fun r => decide (r.status ≠ Status.absent))).length : ℚ) / (l.length : ℚ) * 100
  else 0

/-- Trend from the two window rates, mirroring the two consecutive `if` statements of the
source (default `stable`, then the improve test, then the decline test). -/
def trendOf (recentRate priorRate : ℚ) : Trend :=
  let t := Trend.stable
  let t := if priorRate + 10 < recentRate then Trend.improving else t
  if recentRate < priorRate - 10 then Trend.declining else t

/-- Most-recent-first record order: the comparator `(a, b) => b.time - a.time`. -/
def recOrd (a b : AttendanceRecord) : Prop :=
  b.timestamp.getTime ≤ a.timestamp.getTime

instance : DecidableRel recOrd := fun a b =>
  inferInstanceAs (Decidable (b.timestamp.getTime ≤ a.timestamp.getTime))

instance : IsTotal AttendanceRecord recOrd :=
  ⟨fun a b => le_total b.timestamp.getTime a.timestamp.getTime⟩

instance : IsTrans AttendanceRecord recOrd :=
  ⟨fun _ _ _ hab hbc => le_trans hbc hab⟩

/-- Sort records most-recent-first; the JS engine's sort is stable, modelled by stable
insertion sort. -/
def sortByTimeDesc (l : List AttendanceRecord) : List AttendanceRecord :=
  l.insertionSort recOrd

/-- Length of the leading run of Absent records, modelling the counting loop that breaks at
the first non-Absent record. -/
def countLeadingAbsent : List AttendanceRecord → Nat
  | [] => 0
  | r :: rs => if r.status = Status.absent then countLeadingAbsent rs + 1 else 0

/-- Per-student statistics (`StudentAttendanceStats`, the fields the screens read). -/
structure StudentAttendanceStats where
  totalClasses : Nat
  present : Nat
  late : Nat
  absent : Nat
  attended : Nat
  attendancePercentage : ℚ
  trend : Trend
  lastAttended : Option Date
  consecutiveAbsences : Nat
deriving DecidableEq

/-- The `studentRecords` local of `calculateStudentStats`: the records referencing the
student. -/
def studentRecordsOf (student : Student) (records : List AttendanceRecord) :
    List AttendanceRecord :=
  records.filter (fun r => decide (r.studentId = student.id))

/-- Embedding of `calculateStudentStats` for one student: counts over the student's records,
the attendance percentage, the 7/14-day trend, the last attended timestamp and the current
run of absences. -/
def calculateStudentStats (now : Date) (student : Student) (records : List AttendanceRecord) :
    StudentAttendanceStats :=
  let studentRecords := studentRecordsOf student records
  let totalClasses := studentRecords.length
  let present := (studentRecords.filter (fun r => decide (r.status = Status.present))).length
  let late := (studentRecords.filter (fun r => decide (r.status = Status.late))).length
  let absent := (studentRecords.filter (fun r => decide (r.status = Status.absent))).length
  let attended := present + late
  let attendancePercentage : ℚ :=
    if 0 < totalClasses then ((attended : ℚ) / (totalClasses : ℚ)) * 100 else 0
  let trend := trendOf (windowRate (windowRecent now studentRecords))
    (windowRate (windowPrior now studentRecords))
  let attendedRecords :=
    sortByTimeDesc (studentRecords.filter (fun r => decide (r.status ≠ Status.absent)))
  let lastAttended := attendedRecords.head?.map (·.timestamp)
  let consecutiveAbsences := countLeadingAbsent (sortByTimeDesc studentRecords)
  { totalClasses := totalClasses
    present := present
    late := late
    absent := absent
    attended := attended
    attendancePercentage := attendancePercentage
    trend := trend
    lastAttended := lastAttended
    consecutiveAbsences := consecutiveAbsences }

/-! ### Student analytics (`calculateWeeklyStats` and `getDayAttendance`) -/

/-- Aggregate held for one week bucket. -/
structure WeekData where
  present : Nat
  late : Nat
  absent : Nat
  total : Nat
deriving DecidableEq

/-- Day index of the Sunday starting the week of `d` (the `weekKey` computed with
`setDate(getDate() - getDay())`). -/
def weekKeyOf (d : Date) : Int := d.day - d.getDay

/-- Count a record with status `s` into a week aggregate: `total++`, then the status branch
(`Present`, else `Late`, else absent). -/
def bumpWeek (w : WeekData) (s : Status) : WeekData :=
  let w' := { w with total := w.total + 1 }
  match s with
  | Status.present => { w' with present := w'.present + 1 }
  | Status.late => { w' with late := w'.late + 1 }
  | Status.absent => { w' with absent := w'.absent + 1 }

/-- Upsert of one record into the insertion-ordered week map. -/
def weekMapAdd (m : List (Int × WeekData)) (k : Int) (s : Status) : List (Int × WeekData) :=
  match m with
  | [] => [(k, bumpWeek ⟨0, 0, 0, 0⟩ s)]
  | (k', w) :: rest =>
    if k' = k then (k', bumpWeek w s) :: rest else (k', w) :: weekMapAdd rest k s

/-- The `weekMap` built by `calculateWeeklyStats` by folding over the records in stored
order. -/
def buildWeekMap (records : List AttendanceRecord) : List (Int × WeekData) :=
  records.foldl (fun m r => weekMapAdd m (weekKeyOf r.timestamp) r.status) []

/-- Embedding of `calculateWeeklyStats`: week map entries in insertion order, then
`slice(-8)` and `reverse()`. -/
def calculateWeeklyStats (records : List AttendanceRecord) : List (Int × WeekData) :=
  let arr := buildWeekMap records
  (arr.drop (arr.length - 8)).reverse

/-- Keys of a list in order of first occurrence (the insertion order a JS `Map` keeps). -/
def firstOccurrences (l : List Int) : List Int :=
  l.foldl (fun acc k => if k ∈ acc then acc else acc ++ [k]) []

/-- Week-bucket counts of the records whose week key is `k`. -/
def weekCountsOf (records : List AttendanceRecord) (k : Int) : WeekData :=
  { present := (records.filter (fun r =>
      decide (weekKeyOf r.timestamp = k) && decide (r.status = Status.present))).length
    late := (records.filter (fun r =>
      decide (weekKeyOf r.timestamp = k) && decide (r.status = Status.late))).length
    absent := (records.filter (fun r =>
      decide (weekKeyOf r.timestamp = k) && decide (r.status = Status.absent))).length
    total := (records.filter (fun r => decide (weekKeyOf r.timestamp = k))).length }

/-- Lookup of a week bucket, defaulting to the empty aggregate. -/
def weekGetD (m : List (Int × WeekData)) (k : Int) : WeekData :=
  ((m.find? (fun p => decide (p.1 = k))).map (·.2)).getD ⟨0, 0, 0, 0⟩

/-- Embedding of `getDayAttendance`: the day's records in stored order; the status of the
last one, if any. -/
def getDayAttendance (attendanceRecords : List AttendanceRecord) (date : Date) : Option Status :=
  let dayRecords := attendanceRecords.filter (fun r => decide (r.timestamp.day = date.day))
  match dayRecords.getLast? with
  | none => none
  | some r => some r.status

/-- Modelled from the spec: the entry the spec's dailySummary wording selects for a day —
the entry that is last in timestamp order, with stored order breaking timestamp ties. -/
def specDayStatus (records : List AttendanceRecord) (date : Date) : Option Status :=
  ((records.filter (fun r => decide (r.timestamp.day = date.day))).foldl
    (fun best r =>
      match best with
      | none => some r
      | some b => if b.timestamp.getTime ≤ r.timestamp.getTime then some r else some b)
    none).map (·.status)

/-! ### Attendance marking flow -/

/-- Stored browser collections. -/
structure DB where
  students : List Student
  attendance : List AttendanceRecord
deriving DecidableEq

/-- `getTodayAttendance` of the database wrapper: records of the current calendar day. -/
def getTodayAttendance (db : DB) (now : Date) : List AttendanceRecord :=
  db.attendance.filter (fun r => decide (r.timestamp.day = now.day))

/-- `markAttendance` of the database wrapper: append to the attendance collection. -/
def markAttendance (db : DB) (r : AttendanceRecord) : DB :=
  { db with attendance := db.attendance ++ [r] }

/-- Status derived at the moment an entry is created (AttendanceMarking): scheduled start
09:00, late threshold 15 minutes later, compared over `hour * 60 + minute`. -/
def deriveStatus (now : Date) : Status :=
  let currentTime := now.getHours * 60 + now.getMinutes
  let lectureStart := 9 * 60
  let lateThreshold := lectureStart + 15
  if lateThreshold < currentTime then Status.late else Status.present

/-- Result banner kind shown after a capture. -/
inductive ResultKind where
  | success
  | error
deriving DecidableEq

/-- Result shown after a single capture. -/
structure SingleResult where
  student : Option Student
  confidence : ℚ
  status : Option ResultKind
  message : String
deriving DecidableEq

/-- Embedding of the recognition branch of `captureAndRecognize`; the recognizer outcome is
passed in as an optional student plus a confidence. -/
def captureAndRecognize (db : DB) (now : Date) (recognizedStudent : Option Student)
    (confidence : ℚ) : DB × SingleResult :=
  match recognizedStudent with
  | some student =>
    if 3 / 4 < confidence then
      let status := deriveStatus now
      let todayAttendance := getTodayAttendance db now
      match todayAttendance.find? (fun r => decide (r.studentId = student.id)) with
      | some _ =>
        (db, { student := some student
               confidence := confidence
               status := some ResultKind.error
               message := "Attendance already marked for today" })
      | none =>
        let newRecord : AttendanceRecord :=
          { studentId := student.id, timestamp := now, status := status,
            confidence := confidence }
        (markAttendance db newRecord,
         { student := some student
           confidence := confidence
           status := some ResultKind.success
           message := "Attendance marked successfully" })
    else
      (db, { student := none
             confidence := confidence
             status := some ResultKind.error
             message := "Face recognition confidence too low or no match" })
  | none =>
    (db, { student := none
           confidence := confidence
           status := some ResultKind.error
           message := "No matching face found" })

/-- Entry of the bulk-result list (`markedStudents`). -/
structure MarkedStudent where
  student : Student
  confidence : ℚ
  status : Status
deriving DecidableEq

/-- Embedding of the marking loop of `processUploadedImage` over the recognizer output: the
stored collection is re-read on each iteration, so the state threads through the loop; a
student already marked today is skipped for writing but still pushed to the results. -/
def processRecognizedLoop (now : Date) (status : Status) :
    DB → List (Student × ℚ) → DB × List MarkedStudent
  | db, [] => (db, [])
  | db, (student, conf) :: rest =>
    if 3 / 4 ≤ conf then
      let todayAttendance := getTodayAttendance db now
      if (todayAttendance.find? (fun r => decide (r.studentId = student.id))).isSome then
        let step := processRecognizedLoop now status db rest
        (step.1, { student := student, confidence := conf, status := status } :: step.2)
      else
        let db1 := markAttendance db
          { studentId := student.id, timestamp := now, status := status, confidence := conf }
        let step := processRecognizedLoop now status db1 rest
        (step.1, { student := student, confidence := conf, status := status } :: step.2)
    else processRecognizedLoop now status db rest

/-! ### Helper lemmas about the insertion-ordered maps -/

/-- Reading the head entry of the insertion-ordered map. -/
theorem mapGet_cons (k0 : String) (v0 : AttendanceRecord)
    (rest : List (String × AttendanceRecord)) (k' : String) :
    mapGet ((k0, v0) :: rest) k' = if k' = k0 then some v0 else mapGet rest k' := by
  by_cases h : k' = k0
  · subst h
    simp [mapGet, List.find?_cons_of_pos]
  · rw [if_neg h]
    have hp : (decide ((k0, v0).1 = k') = false) := by
      simp [Ne.symm h]
    simp [mapGet, List.find?_cons_of_neg, hp]

/-- `Map.set` then `Map.get`: the set key reads back the new value, other keys are
unchanged. -/
theorem mapGet_mapSet (m : List (String × AttendanceRecord)) (k : String)
    (v : AttendanceRecord) (k' : String) :
    mapGet (mapSet m k v) k' = if k' = k then some v else mapGet m k' := by
  induction m with
  | nil =>
    simp only [mapSet]
    rw [mapGet_cons]
  | cons p rest ih =>
    obtain ⟨k0, v0⟩ := p
    simp only [mapSet]
    by_cases h0 : k0 = k
    · subst h0
      rw [if_pos rfl, mapGet_cons, mapGet_cons]
      by_cases h : k' = k0 <;> simp [h]
    · rw [if_neg h0, mapGet_cons, ih, mapGet_cons]
      by_cases h : k' = k0
      · have hk : ¬ k' = k := fun hh => h0 (h.symm.trans hh)
        simp [h, hk, h0]
      · simp [h]

/-- The per-student map keeps, for each student, the record that is last in stored order:
`Map.set` in iteration order overwrites earlier records with later ones. -/
theorem buildAttendanceMap_get (records : List AttendanceRecord) (k : String) :
    mapGet (buildAttendanceMap records) k =
      (records.filter (fun r => decide (r.studentId = k))).getLast? := by
  induction records using List.reverseRecOn with
  | nil => rfl
  | append_singleton l r ih =>
    have hfold : buildAttendanceMap (l ++ [r]) = mapSet (buildAttendanceMap l) r.studentId r := by
      simp [buildAttendanceMap, List.foldl_append]
    rw [hfold, mapGet_mapSet, List.filter_append]
    by_cases h : r.studentId = k
    · simp [h, List.getLast?_concat]
    · have hk : ¬ k = r.studentId := fun hh => h hh.symm
      simp [h, hk, ih]

/-! ### Claim C1 -/

/-- C1 counterexample: on People = [A,B,C] with one Present entry (A at 09:02) and one Late
entry (B at 09:20) for the day, the Dashboard screen's daily summary reports an attendance
rate of 1/3 of 100, not the claimed (present+late)/|People| = 2/3 of 100; the
FacultyAnalytics session summary does report 2/3 of 100. -/
theorem dashboard_rate_omits_late_at_example :
    (loadDashboardData [⟨"a", "student"⟩, ⟨"b", "student"⟩, ⟨"c", "student"⟩]
      [⟨"a", ⟨0, 32520000⟩, Status.present, 1⟩,
       ⟨"b", ⟨0, 33600000⟩, Status.late, 1⟩]).attendanceRate = 100 / 3 ∧
    ¬ (loadDashboardData [⟨"a", "student"⟩, ⟨"b", "student"⟩, ⟨"c", "student"⟩]
      [⟨"a", ⟨0, 32520000⟩, Status.present, 1⟩,
       ⟨"b", ⟨0, 33600000⟩, Status.late, 1⟩]).attendanceRate = 200 / 3 ∧
    (calculateStats (loadTodaySession [⟨"a", "student"⟩, ⟨"b", "student"⟩, ⟨"c", "student"⟩]
      [⟨"a", ⟨0, 32520000⟩, Status.present, 1⟩,
       ⟨"b", ⟨0, 33600000⟩, Status.late, 1⟩])).attendanceRate = 200 / 3 := by
  have hsession : loadTodaySession [⟨"a", "student"⟩, ⟨"b", "student"⟩, ⟨"c", "student"⟩]
      [⟨"a", ⟨0, 32520000⟩, Status.present, 1⟩,
       ⟨"b", ⟨0, 33600000⟩, Status.late, 1⟩] =
      [⟨⟨"a", "student"⟩, Status.present, MarkedBy.manual, some ⟨0, 32520000⟩, some 1⟩,
       ⟨⟨"b", "student"⟩, Status.late, MarkedBy.manual, some ⟨0, 33600000⟩, some 1⟩,
       ⟨⟨"c", "student"⟩, Status.absent, MarkedBy.notMarked, none, none⟩] := by decide
  refine ⟨?_, ?_, ?_⟩
  · simp [loadDashboardData]
    norm_num
  · simp [loadDashboardData]
    norm_num
  · rw [hsession]
    simp only [calculateStats, List.filter, List.length]
    norm_num

/-- C1 amended: the FacultyAnalytics session summary computes
attendanceRate = (present + late) / total of 100 (0 when total is 0), where total is the
number of role-student people; the Dashboard screen instead computes
attendanceRate = present / |People| of 100, omitting Late entries. -/
theorem session_and_dashboard_attendance_rate (students : List Student)
    (entries : List AttendanceRecord) :
    (calculateStats (loadTodaySession students entries)).total =
      (students.filter (fun s => decide (s.role = "student"))).length ∧
    (calculateStats (loadTodaySession students entries)).attendanceRate =
      (if 0 < (calculateStats (loadTodaySession students entries)).total then
        (((calculateStats (loadTodaySession students entries)).present : ℚ) +
          ((calculateStats (loadTodaySession students entries)).late : ℚ)) /
          ((calculateStats (loadTodaySession students entries)).total : ℚ) * 100
      else 0) ∧
    (loadDashboardData students entries).attendanceRate =
      (if 0 < students.length then
        (((loadDashboardData students entries).presentToday : ℚ) / (students.length : ℚ)) * 100
      else 0) := by
  refine ⟨?_, rfl, rfl⟩
  simp [calculateStats, loadTodaySession]

/-! ### Claim C7 -/

/-- C7 counterexample: for a person whose entries, most-recent-first, are
[Present, Absent, Absent], `calculateStudentStats` returns consecutiveAbsences = 0, not 2:
the counting loop breaks at the most recent entry, which is not Absent. -/
theorem consecutive_absences_example_counterexample :
    (calculateStudentStats ⟨20, 0⟩ ⟨"s", "student"⟩
      [⟨"s", ⟨3, 0⟩, Status.present, 1⟩, ⟨"s", ⟨2, 0⟩, Status.absent, 1⟩,
       ⟨"s", ⟨1, 0⟩, Status.absent, 1⟩]).consecutiveAbsences = 0 ∧
    ¬ (calculateStudentStats ⟨20, 0⟩ ⟨"s", "student"⟩
      [⟨"s", ⟨3, 0⟩, Status.present, 1⟩, ⟨"s", ⟨2, 0⟩, Status.absent, 1⟩,
       ⟨"s", ⟨1, 0⟩, Status.absent, 1⟩]).consecutiveAbsences = 2 := by decide

/-- C7 amended: for a person whose entries, listed most-recent-first, are
[Absent, Absent, Present], `calculateStudentStats` returns consecutiveAbsences = 2
(for [Present, Absent, Absent] most-recent-first it returns 0). -/
theorem consecutive_absences_example_corrected :
    (calculateStudentStats ⟨20, 0⟩ ⟨"s", "student"⟩
      [⟨"s", ⟨3, 0⟩, Status.absent, 1⟩, ⟨"s", ⟨2, 0⟩, Status.absent, 1⟩,
       ⟨"s", ⟨1, 0⟩, Status.present, 1⟩]).consecutiveAbsences = 2 := by decide

/-! ### Claim C9 -/

/-- C9: for non-empty People and no attendance entries, both daily summaries report
present = 0, late = 0, absent = |People| and rate = 0; and in the session view any person
with no entry for the day is given status Absent. -/
theorem empty_day_summary_all_absent (students : List Student) (_h : students ≠ []) :
    (loadDashboardData students []).presentToday = 0 ∧
    (loadDashboardData students []).lateToday = 0 ∧
    (loadDashboardData students []).absentToday = (students.length : Int) ∧
    (loadDashboardData students []).attendanceRate = 0 ∧
    (calculateStats (loadTodaySession students [])).present = 0 ∧
    (calculateStats (loadTodaySession students [])).late = 0 ∧
    (calculateStats (loadTodaySession students [])).absent =
      (students.filter (fun s => decide (s.role = "student"))).length ∧
    (calculateStats (loadTodaySession students [])).attendanceRate = 0 ∧
    (∀ (entries : List AttendanceRecord) (item : TodaySessionStudent),
      item ∈ loadTodaySession students entries →
      entries.filter (fun r => decide (r.studentId = item.student.id)) = [] →
      item.status = Status.absent) := by
  have hdata : loadTodaySession students [] =
      (students.filter (fun s => decide (s.role = "student"))).map
        (fun s => ⟨s, Status.absent, MarkedBy.notMarked, none, none⟩) := by
    simp [loadTodaySession, buildAttendanceMap, mapGet]
  refine ⟨?_, ?_, ?_, ?_, ?_, ?_, ?_, ?_, ?_⟩
  · simp [loadDashboardData]
  · simp [loadDashboardData]
  · simp [loadDashboardData]
  · simp [loadDashboardData]
  · rw [hdata]; simp [calculateStats, List.filter_map]
  · rw [hdata]; simp [calculateStats, List.filter_map]
  · rw [hdata]; simp [calculateStats, List.filter_map]
  · rw [hdata]; simp [calculateStats, List.filter_map]
  · intro entries item hmem hfilter
    simp only [loadTodaySession, List.mem_map] at hmem
    obtain ⟨s, _, rfl⟩ := hmem
    rcases hmg : mapGet (buildAttendanceMap entries) s.id with _ | record
    · simp [hmg]
    · exfalso
      rw [buildAttendanceMap_get] at hmg
      have hstudent :
          (match mapGet (buildAttendanceMap entries) s.id with
            | some record =>
              ({ student := s
                 status := record.status
                 markedBy :=
                   if record.confidence = 1 then MarkedBy.manual else MarkedBy.faceRecognition
                 timestamp := some record.timestamp
                 confidence := some record.confidence } : TodaySessionStudent)
            | none =>
              { student := s
                status := Status.absent
                markedBy := MarkedBy.notMarked
                timestamp := none
                confidence := none }).student = s := by
        rcases mapGet (buildAttendanceMap entries) s.id with _ | r <;> rfl
      rw [hstudent] at hfilter
      rw [hfilter] at hmg
      simp at hmg

/-- C9 witness: the statement instantiated at a single registered student and no entries. -/
theorem empty_day_summary_all_absent_witness :
    (loadDashboardData [⟨"a", "student"⟩] []).presentToday = 0 ∧
    (loadDashboardData [⟨"a", "student"⟩] []).absentToday = 1 ∧
    (calculateStats (loadTodaySession [⟨"a", "student"⟩] [])).absent = 1 ∧
    (calculateStats (loadTodaySession [⟨"a", "student"⟩] [])).attendanceRate = 0 := by
  have h := empty_day_summary_all_absent [⟨"a", "student"⟩] (by decide)
  refine ⟨h.1, ?_, ?_, h.2.2.2.2.2.2.2.1⟩
  · rw [h.2.2.1]; rfl
  · rw [h.2.2.2.2.2.2.1]; rfl

/-! ### Claim C5 -/

/-- C5 counterexample: two same-day entries where the entry stored first has the later
timestamp. The spec-worded selection (last in timestamp order, stored order breaking ties)
picks the Present entry; `getDayAttendance` picks the last stored entry, the Late one. -/
theorem day_status_ignores_timestamp_counterexample :
    getDayAttendance
      [⟨"s", ⟨0, 200⟩, Status.present, 1⟩, ⟨"s", ⟨0, 100⟩, Status.late, 1⟩] ⟨0, 0⟩ =
      some Status.late ∧
    specDayStatus
      [⟨"s", ⟨0, 200⟩, Status.present, 1⟩, ⟨"s", ⟨0, 100⟩, Status.late, 1⟩] ⟨0, 0⟩ =
      some Status.present ∧
    ¬ getDayAttendance
      [⟨"s", ⟨0, 200⟩, Status.present, 1⟩, ⟨"s", ⟨0, 100⟩, Status.late, 1⟩] ⟨0, 0⟩ =
      specDayStatus
      [⟨"s", ⟨0, 200⟩, Status.present, 1⟩, ⟨"s", ⟨0, 100⟩, Status.late, 1⟩] ⟨0, 0⟩ := by
  decide

/-- C5 amended: a person's status for a day is that of the entry stored last among that
day's entries, irrespective of timestamps; likewise the session view's per-student map
keeps, for each student, the record that is last in stored order. -/
theorem day_status_last_stored_entry (records : List AttendanceRecord) (d : Date)
    (k : String) :
    getDayAttendance records d =
      ((records.filter (fun r => decide (r.timestamp.day = d.day))).getLast?).map
        (fun r => r.status) ∧
    mapGet (buildAttendanceMap records) k =
      (records.filter (fun r => decide (r.studentId = k))).getLast? := by
  constructor
  · rcases h : (records.filter (fun r => decide (r.timestamp.day = d.day))).getLast? with _ | r <;>
      simp [getDayAttendance, h]
  · exact buildAttendanceMap_get records k

/-! ### Claim C2 -/

/-- Counting over pointwise-related lists: related elements score identically. -/
theorem countP_congr_forall2 {R : AttendanceRecord → AttendanceRecord → Prop}
    {l l' : List AttendanceRecord} (h : List.Forall₂ R l l')
    {p : AttendanceRecord → Bool} (hp : ∀ a b, R a b → p a = p b) :
    l.countP p = l'.countP p := by
  induction h with
  | nil => rfl
  | cons hab htail ih => simp [List.countP_cons, ih, hp _ _ hab]

/-- C2: at entry creation the status is Present exactly when the capture time (hour and
minute) is at or before 09:15, otherwise Late; and the aggregation counts of
`calculateStudentStats` depend only on the stored studentId and status fields of the
records — changing every timestamp (hence any grace-period reclassification) leaves the
present/late/absent counts and the attendance percentage unchanged. -/
theorem status_derived_at_creation_and_read_as_stored :
    (∀ now : Date, deriveStatus now = Status.present ↔
      now.getHours * 60 + now.getMinutes ≤ 9 * 60 + 15) ∧
    (∀ (now now' : Date) (student : Student) (rs rs' : List AttendanceRecord),
      List.Forall₂ (fun a b => a.studentId = b.studentId ∧ a.status = b.status) rs rs' →
      (calculateStudentStats now student rs).totalClasses =
        (calculateStudentStats now' student rs').totalClasses ∧
      (calculateStudentStats now student rs).present =
        (calculateStudentStats now' student rs').present ∧
      (calculateStudentStats now student rs).late =
        (calculateStudentStats now' student rs').late ∧
      (calculateStudentStats now student rs).absent =
        (calculateStudentStats now' student rs').absent ∧
      (calculateStudentStats now student rs).attendancePercentage =
        (calculateStudentStats now' student rs').attendancePercentage) := by
  constructor
  · intro now
    simp only [deriveStatus]
    split
    · constructor
      · intro h
        exact absurd h (by simp)
      · omega
    · simp
      omega
  · intro now now' student rs rs' h
    have hsid : ∀ (st : Status),
        ((rs.filter (fun r => decide (r.studentId = student.id))).filter
          (fun r => decide (r.status = st))).length =
        ((rs'.filter (fun r => decide (r.studentId = student.id))).filter
          (fun r => decide (r.status = st))).length := by
      intro st
      rw [List.filter_filter, List.filter_filter,
        ← List.countP_eq_length_filter, ← List.countP_eq_length_filter]
      exact countP_congr_forall2 h (fun a b hab => by simp [hab.1, hab.2])
    have hlen : (rs.filter (fun r => decide (r.studentId = student.id))).length =
        (rs'.filter (fun r => decide (r.studentId = student.id))).length := by
      rw [← List.countP_eq_length_filter, ← List.countP_eq_length_filter]
      exact countP_congr_forall2 h (fun a b hab => by simp [hab.1])
    refine ⟨?_, ?_, ?_, ?_, ?_⟩ <;>
      simp only [calculateStudentStats, studentRecordsOf]
    · exact hlen
    · exact hsid Status.present
    · exact hsid Status.late
    · exact hsid Status.absent
    · rw [hlen, hsid Status.present, hsid Status.late]

/-- C2 witness: a capture at 09:00 derives Present, and a record stored Present keeps
counting as Present after its timestamp is moved past the late threshold. -/
theorem status_read_as_stored_witness :
    deriveStatus ⟨0, 32400000⟩ = Status.present ∧
    (calculateStudentStats ⟨0, 0⟩ ⟨"s", "student"⟩
      [⟨"s", ⟨0, 32400000⟩, Status.present, 1⟩]).present =
    (calculateStudentStats ⟨5, 0⟩ ⟨"s", "student"⟩
      [⟨"s", ⟨0, 57600000⟩, Status.present, 1⟩]).present := by
  constructor
  · exact (status_derived_at_creation_and_read_as_stored.1 ⟨0, 32400000⟩).mpr (by decide)
  · exact (status_derived_at_creation_and_read_as_stored.2 ⟨0, 0⟩ ⟨5, 0⟩ ⟨"s", "student"⟩
      _ _ (List.Forall₂.cons ⟨rfl, rfl⟩ List.Forall₂.nil)).2.1

/-! ### Claim C4 -/

/-- The two consecutive `if` statements produce `improving` exactly on the strict
10-point-up test. -/
theorem trendOf_improving_iff (r p : ℚ) : trendOf r p = Trend.improving ↔ p + 10 < r := by
  by_cases h2 : r < p - 10 <;> by_cases h1 : p + 10 < r <;>
    simp [trendOf, h1, h2]
  linarith

/-- They produce `declining` exactly on the strict 10-point-down test. -/
theorem trendOf_declining_iff (r p : ℚ) : trendOf r p = Trend.declining ↔ r < p - 10 := by
  by_cases h2 : r < p - 10 <;> by_cases h1 : p + 10 < r <;> simp [trendOf, h1, h2]

/-- They produce `stable` exactly when neither test fires. -/
theorem trendOf_stable_iff (r p : ℚ) :
    trendOf r p = Trend.stable ↔ ¬ p + 10 < r ∧ ¬ r < p - 10 := by
  by_cases h2 : r < p - 10 <;> by_cases h1 : p + 10 < r <;> simp [trendOf, h1, h2]

/-- C4: the trend compares the non-absent rate of the recent window (entries at most 7
floored days back) with that of the prior window (8 to 14 floored days back); an empty
window contributes rate 0; the result is improving exactly when the recent rate exceeds
the prior by more than 10 points, declining exactly when it is more than 10 points lower,
and stable otherwise. -/
theorem trend_threshold_rule (now : Date) (student : Student)
    (records : List AttendanceRecord) :
    (windowRecent now (studentRecordsOf student records) = [] →
      windowRate (windowRecent now (studentRecordsOf student records)) = 0) ∧
    (windowPrior now (studentRecordsOf student records) = [] →
      windowRate (windowPrior now (studentRecordsOf student records)) = 0) ∧
    ((calculateStudentStats now student records).trend = Trend.improving ↔
      windowRate (windowPrior now (studentRecordsOf student records)) + 10 <
        windowRate (windowRecent now (studentRecordsOf student records))) ∧
    ((calculateStudentStats now student records).trend = Trend.declining ↔
      windowRate (windowRecent now (studentRecordsOf student records)) <
        windowRate (windowPrior now (studentRecordsOf student records)) - 10) ∧
    ((calculateStudentStats now student records).trend = Trend.stable ↔
      (¬ windowRate (windowPrior now (studentRecordsOf student records)) + 10 <
        windowRate (windowRecent now (studentRecordsOf student records))) ∧
      (¬ windowRate (windowRecent now (studentRecordsOf student records)) <
        windowRate (windowPrior now (studentRecordsOf student records)) - 10)) := by
  have htrend : (calculateStudentStats now student records).trend =
      trendOf (windowRate (windowRecent now (studentRecordsOf student records)))
        (windowRate (windowPrior now (studentRecordsOf student records))) := rfl
  refine ⟨?_, ?_, ?_, ?_, ?_⟩
  · intro h
    rw [h]
    rfl
  · intro h
    rw [h]
    rfl
  · rw [htrend]
    exact trendOf_improving_iff _ _
  · rw [htrend]
    exact trendOf_declining_iff _ _
  · rw [htrend]
    exact trendOf_stable_iff _ _

/-- C4 witness: a student with one Present record today and none in the prior window is
classified improving (rates 100 versus 0). -/
theorem trend_threshold_rule_witness :
    (calculateStudentStats ⟨20, 0⟩ ⟨"s", "student"⟩
      [⟨"s", ⟨20, 0⟩, Status.present, 1⟩]).trend = Trend.improving := by
  refine ((trend_threshold_rule ⟨20, 0⟩ ⟨"s", "student"⟩
    [⟨"s", ⟨20, 0⟩, Status.present, 1⟩]).2.2.1).mpr ?_
  have hw : windowRecent ⟨20, 0⟩ (studentRecordsOf ⟨"s", "student"⟩
      [⟨"s", ⟨20, 0⟩, Status.present, 1⟩]) = [⟨"s", ⟨20, 0⟩, Status.present, 1⟩] := by decide
  have hp : windowPrior ⟨20, 0⟩ (studentRecordsOf ⟨"s", "student"⟩
      [⟨"s", ⟨20, 0⟩, Status.present, 1⟩]) = [] := by decide
  rw [hw, hp]
  simp [windowRate, List.filter]
  norm_num

/-! ### Claim C6 -/

/-- The break-at-first-non-Absent loop counts exactly the leading Absent run. -/
theorem countLeadingAbsent_eq_takeWhile (l : List AttendanceRecord) :
    countLeadingAbsent l =
      (l.takeWhile (fun r => decide (r.status = Status.absent))).length := by
  induction l with
  | nil => rfl
  | cons r rs ih =>
    by_cases h : r.status = Status.absent <;>
      simp [countLeadingAbsent, List.takeWhile_cons, h, ih]

/-- C6: when the student's records are already in most-recent-first order,
consecutiveAbsences is the length of the maximal leading run of Absent records; it is 0
for an empty list and 0 when the most recent record is not Absent. -/
theorem consecutive_absences_leading_run (now : Date) (student : Student)
    (records : List AttendanceRecord)
    (hsorted : List.Sorted recOrd (studentRecordsOf student records)) :
    (calculateStudentStats now student records).consecutiveAbsences =
      ((studentRecordsOf student records).takeWhile
        (fun r => decide (r.status = Status.absent))).length ∧
    (studentRecordsOf student records = [] →
      (calculateStudentStats now student records).consecutiveAbsences = 0) ∧
    (∀ (r : AttendanceRecord) (rest : List AttendanceRecord),
      studentRecordsOf student records = r :: rest → ¬ r.status = Status.absent →
      (calculateStudentStats now student records).consecutiveAbsences = 0) := by
  have hmain : (calculateStudentStats now student records).consecutiveAbsences =
      ((studentRecordsOf student records).takeWhile
        (fun r => decide (r.status = Status.absent))).length := by
    have hfix : sortByTimeDesc (studentRecordsOf student records) =
        studentRecordsOf student records := hsorted.insertionSort_eq
    show countLeadingAbsent (sortByTimeDesc (studentRecordsOf student records)) = _
    rw [hfix, countLeadingAbsent_eq_takeWhile]
  refine ⟨hmain, ?_, ?_⟩
  · intro h
    rw [hmain, h]
    rfl
  · intro r rest hcons hstatus
    rw [hmain, hcons]
    simp [List.takeWhile_cons, hstatus]

/-- C6 witness: a sorted two-record list with the most recent record Absent has
consecutiveAbsences 1, the length of its leading Absent run. -/
theorem consecutive_absences_leading_run_witness :
    (calculateStudentStats ⟨20, 0⟩ ⟨"s", "student"⟩
      [⟨"s", ⟨3, 0⟩, Status.absent, 1⟩, ⟨"s", ⟨2, 0⟩, Status.present, 1⟩]).consecutiveAbsences =
      ((studentRecordsOf ⟨"s", "student"⟩
        [⟨"s", ⟨3, 0⟩, Status.absent, 1⟩, ⟨"s", ⟨2, 0⟩, Status.present, 1⟩]).takeWhile
          (fun r => decide (r.status = Status.absent))).length ∧
    (calculateStudentStats ⟨20, 0⟩ ⟨"s", "student"⟩
      [⟨"s", ⟨3, 0⟩, Status.absent, 1⟩, ⟨"s", ⟨2, 0⟩, Status.present, 1⟩]).consecutiveAbsences = 1 := by
  have h := consecutive_absences_leading_run ⟨20, 0⟩ ⟨"s", "student"⟩
    [⟨"s", ⟨3, 0⟩, Status.absent, 1⟩, ⟨"s", ⟨2, 0⟩, Status.present, 1⟩] (by decide)
  exact ⟨h.1, by decide⟩

/-! ### Claim C8 -/

/-- Present and Late records are disjoint classes, so their counts sum to at most the
number of records. -/
theorem filter_status_add_le_length (l : List AttendanceRecord) :
    (l.filter (fun r => decide (r.status = Status.present))).length +
      (l.filter (fun r => decide (r.status = Status.late))).length ≤ l.length := by
  induction l with
  | nil => simp
  | cons r rs ih =>
    cases hst : r.status <;> simp [List.filter_cons, hst] <;> omega

/-- The stable descending sort returns the empty list only for the empty list. -/
theorem sortByTimeDesc_eq_nil_iff (l : List AttendanceRecord) :
    sortByTimeDesc l = [] ↔ l = [] := by
  constructor
  · intro h
    have hlen := (List.perm_insertionSort recOrd l).length_eq
    rw [show l.insertionSort recOrd = sortByTimeDesc l from rfl, h] at hlen
    exact List.length_eq_zero.mp hlen.symm
  · intro h
    rw [h]
    rfl

/-- C8: attendancePercentage is (present + late) over the number of observed records,
as a percentage, lies in [0, 100], and is 0 for a person with no records; lastAttended is
the timestamp of a most recent non-Absent record, and null exactly when there is none. -/
theorem person_statistics_percentage_and_last_attended (now : Date) (student : Student)
    (records : List AttendanceRecord) :
    (calculateStudentStats now student records).attendancePercentage =
      (if 0 < (studentRecordsOf student records).length then
        (((calculateStudentStats now student records).present : ℚ) +
          ((calculateStudentStats now student records).late : ℚ)) /
          ((studentRecordsOf student records).length : ℚ) * 100
      else 0) ∧
    0 ≤ (calculateStudentStats now student records).attendancePercentage ∧
    (calculateStudentStats now student records).attendancePercentage ≤ 100 ∧
    (studentRecordsOf student records = [] →
      (calculateStudentStats now student records).attendancePercentage = 0) ∧
    ((calculateStudentStats now student records).lastAttended = none ↔
      (studentRecordsOf student records).filter
        (fun r => decide (¬ r.status = Status.absent)) = []) ∧
    (∀ d : Date, (calculateStudentStats now student records).lastAttended = some d →
      (∃ r ∈ studentRecordsOf student records,
        ¬ r.status = Status.absent ∧ r.timestamp = d) ∧
      (∀ r ∈ studentRecordsOf student records, ¬ r.status = Status.absent →
        r.timestamp.getTime ≤ d.getTime)) := by
  have hformula : (calculateStudentStats now student records).attendancePercentage =
      (if 0 < (studentRecordsOf student records).length then
        (((calculateStudentStats now student records).present : ℚ) +
          ((calculateStudentStats now student records).late : ℚ)) /
          ((studentRecordsOf student records).length : ℚ) * 100
      else 0) := by
    simp only [calculateStudentStats]
    norm_cast
  have hlast : (calculateStudentStats now student records).lastAttended =
      ((sortByTimeDesc ((studentRecordsOf student records).filter
        (fun r => decide (¬ r.status = Status.absent)))).head?).map (fun r => r.timestamp) :=
    rfl
  refine ⟨hformula, ?_, ?_, ?_, ?_, ?_⟩
  · rw [hformula]
    split_ifs with h
    · positivity
    · exact le_refl 0
  · rw [hformula]
    split_ifs with h
    · have hle : (calculateStudentStats now student records).present +
          (calculateStudentStats now student records).late ≤
          (studentRecordsOf student records).length :=
        filter_status_add_le_length (studentRecordsOf student records)
      have hA : (((calculateStudentStats now student records).present : ℚ) +
          ((calculateStudentStats now student records).late : ℚ)) ≤
          ((studentRecordsOf student records).length : ℚ) := by
        exact_mod_cast hle
      have hn : (0 : ℚ) < ((studentRecordsOf student records).length : ℚ) := by
        exact_mod_cast h
      rw [div_mul_eq_mul_div, div_le_iff₀ hn]
      nlinarith
    · norm_num
  · intro h
    rw [hformula, h]
    rfl
  · rw [hlast]
    rw [Option.map_eq_none']
    rw [List.head?_eq_none_iff]
    exact sortByTimeDesc_eq_nil_iff _
  · intro d hd
    rw [hlast] at hd
    obtain ⟨r0, hr0head, hr0ts⟩ := Option.map_eq_some'.mp hd
    have hr0mem : r0 ∈ sortByTimeDesc ((studentRecordsOf student records).filter
        (fun r => decide (¬ r.status = Status.absent))) := List.mem_of_mem_head? hr0head
    have hr0att : r0 ∈ (studentRecordsOf student records).filter
        (fun r => decide (¬ r.status = Status.absent)) :=
      (List.mem_insertionSort recOrd).mp hr0mem
    have hr0prop := List.mem_filter.mp hr0att
    constructor
    · exact ⟨r0, hr0prop.1, of_decide_eq_true hr0prop.2, hr0ts⟩
    · intro r hrmem hrstatus
      have hratt : r ∈ (studentRecordsOf student records).filter
          (fun r => decide (¬ r.status = Status.absent)) :=
        List.mem_filter.mpr ⟨hrmem, decide_eq_true hrstatus⟩
      have hrsort : r ∈ sortByTimeDesc ((studentRecordsOf student records).filter
          (fun r => decide (¬ r.status = Status.absent))) :=
        (List.mem_insertionSort recOrd).mpr hratt
      have hsorted : List.Sorted recOrd (sortByTimeDesc
          ((studentRecordsOf student records).filter
            (fun r => decide (¬ r.status = Status.absent)))) :=
        List.sorted_insertionSort recOrd
          ((studentRecordsOf student records).filter
            (fun r => decide (¬ r.status = Status.absent)))
      rcases hsort_eq : sortByTimeDesc ((studentRecordsOf student records).filter
          (fun r => decide (¬ r.status = Status.absent))) with _ | ⟨hd0, tl⟩
      · rw [hsort_eq] at hrsort
        cases hrsort
      · rw [hsort_eq] at hsorted
        have hhd : hd0 = r0 := by
          rw [hsort_eq] at hr0head
          simpa using hr0head
        subst hhd
        rw [hsort_eq] at hrsort
        rcases List.mem_cons.mp hrsort with hcase | hcase
        · subst hcase
          rw [← hr0ts]
        · have := (List.pairwise_cons.mp hsorted).1 r hcase
          rw [← hr0ts]
          exact this

/-- C8 witness: a student with one Present and one Absent record has percentage 50, within
bounds, and lastAttended equal to the Present record's timestamp. -/
theorem person_statistics_percentage_witness :
    (calculateStudentStats ⟨20, 0⟩ ⟨"s", "student"⟩
      [⟨"s", ⟨3, 0⟩, Status.absent, 1⟩, ⟨"s", ⟨2, 0⟩, Status.present, 1⟩]).attendancePercentage =
      (if 0 < (studentRecordsOf ⟨"s", "student"⟩
          [⟨"s", ⟨3, 0⟩, Status.absent, 1⟩, ⟨"s", ⟨2, 0⟩, Status.present, 1⟩]).length then
        (((calculateStudentStats ⟨20, 0⟩ ⟨"s", "student"⟩
          [⟨"s", ⟨3, 0⟩, Status.absent, 1⟩, ⟨"s", ⟨2, 0⟩, Status.present, 1⟩]).present : ℚ) +
          ((calculateStudentStats ⟨20, 0⟩ ⟨"s", "student"⟩
          [⟨"s", ⟨3, 0⟩, Status.absent, 1⟩, ⟨"s", ⟨2, 0⟩, Status.present, 1⟩]).late : ℚ)) /
          ((studentRecordsOf ⟨"s", "student"⟩
          [⟨"s", ⟨3, 0⟩, Status.absent, 1⟩, ⟨"s", ⟨2, 0⟩, Status.present, 1⟩]).length : ℚ) * 100
      else 0) ∧
    (∃ r ∈ studentRecordsOf ⟨"s", "student"⟩
        [⟨"s", ⟨3, 0⟩, Status.absent, 1⟩, ⟨"s", ⟨2, 0⟩, Status.present, 1⟩],
      ¬ r.status = Status.absent ∧ r.timestamp = ⟨2, 0⟩) := by
  have h := person_statistics_percentage_and_last_attended ⟨20, 0⟩ ⟨"s", "student"⟩
    [⟨"s", ⟨3, 0⟩, Status.absent, 1⟩, ⟨"s", ⟨2, 0⟩, Status.present, 1⟩]
  refine ⟨h.1, (h.2.2.2.2.2 ⟨2, 0⟩ ?_).1⟩
  decide

/-! ### Claim C3 -/

/-- Pointwise sum of two week aggregates. -/
def addWeek (a b : WeekData) : WeekData :=
  ⟨a.present + b.present, a.late + b.late, a.absent + b.absent, a.total + b.total⟩

/-- Reading the head entry of the week map. -/
theorem weekGetD_cons (k0 : Int) (w0 : WeekData) (rest : List (Int × WeekData)) (k' : Int) :
    weekGetD ((k0, w0) :: rest) k' = if k' = k0 then w0 else weekGetD rest k' := by
  by_cases h : k' = k0
  · subst h
    simp [weekGetD, List.find?_cons_of_pos]
  · rw [if_neg h]
    have hp : (decide ((k0, w0).1 = k') = false) := by
      simp
      exact fun hh => h hh.symm
    simp [weekGetD, List.find?_cons_of_neg, hp]

/-- Upsert then lookup on the week map. -/
theorem weekGetD_weekMapAdd (m : List (Int × WeekData)) (k : Int) (s : Status) (k' : Int) :
    weekGetD (weekMapAdd m k s) k' =
      if k' = k then bumpWeek (weekGetD m k) s else weekGetD m k' := by
  induction m with
  | nil =>
    simp only [weekMapAdd]
    rw [weekGetD_cons]
    by_cases h : k' = k <;> simp [h, weekGetD]
  | cons p rest ih =>
    obtain ⟨k0, w0⟩ := p
    simp only [weekMapAdd]
    by_cases h0 : k0 = k
    · subst h0
      rw [if_pos rfl, weekGetD_cons, weekGetD_cons]
      by_cases h : k' = k0 <;> simp [h, weekGetD_cons]
    · rw [if_neg h0, weekGetD_cons, ih, weekGetD_cons]
      by_cases h : k' = k0
      · have hk : ¬ k' = k := fun hh => h0 (h.symm.trans hh)
        simp [h, hk, weekGetD_cons, h0]
      · have hkk : ¬ k = k0 := fun hh => h0 hh.symm
        by_cases hk : k' = k <;> simp [h, hk, weekGetD_cons, h0, hkk]

/-- Folding records into the week map adds, per key, the counts of the folded records. -/
theorem foldl_weekMapAdd_getD (rs : List AttendanceRecord) :
    ∀ (m : List (Int × WeekData)) (k : Int),
      weekGetD (rs.foldl (fun m r => weekMapAdd m (weekKeyOf r.timestamp) r.status) m) k =
        addWeek (weekGetD m k) (weekCountsOf rs k) := by
  induction rs with
  | nil =>
    intro m k
    rcases hw : weekGetD m k with ⟨a, b, c, d⟩
    simp [weekCountsOf, addWeek, hw]
  | cons r rest ih =>
    intro m k
    show weekGetD (rest.foldl _ (weekMapAdd m (weekKeyOf r.timestamp) r.status)) k = _
    rw [ih, weekGetD_weekMapAdd]
    by_cases hk : k = weekKeyOf r.timestamp
    · rw [if_pos hk]
      subst hk
      cases hst : r.status <;>
        simp [addWeek, bumpWeek, weekCountsOf, List.filter_cons, hst] <;> omega
    · rw [if_neg hk]
      have hk' : ¬ weekKeyOf r.timestamp = k := fun hh => hk hh.symm
      simp [weekCountsOf, List.filter_cons, hk']

/-- The built week map holds exactly the per-week counts of the records. -/
theorem buildWeekMap_getD (records : List AttendanceRecord) (k : Int) :
    weekGetD (buildWeekMap records) k = weekCountsOf records k := by
  have h := foldl_weekMapAdd_getD records [] k
  rcases hw : weekCountsOf records k with ⟨a, b, c, d⟩
  rw [hw] at h
  simpa [buildWeekMap, weekGetD, addWeek] using h

/-- Upserting preserves existing keys and appends a fresh key at the end. -/
theorem weekMapAdd_keys (m : List (Int × WeekData)) (k : Int) (s : Status) :
    (weekMapAdd m k s).map Prod.fst =
      if k ∈ m.map Prod.fst then m.map Prod.fst else m.map Prod.fst ++ [k] := by
  induction m with
  | nil => simp [weekMapAdd]
  | cons p rest ih =>
    obtain ⟨k0, w0⟩ := p
    by_cases h : k0 = k
    · subst h
      simp [weekMapAdd]
    · simp only [weekMapAdd, if_neg h, List.map_cons, ih]
      have hne : ¬ k = k0 := fun hh => h hh.symm
      by_cases hm : k ∈ rest.map Prod.fst <;>
        simp [hm, List.mem_cons, hne]

/-- Keys of the folded week map extend the accumulator in first-occurrence order. -/
theorem foldl_weekMapAdd_keys (rs : List AttendanceRecord) :
    ∀ (m : List (Int × WeekData)),
      ((rs.foldl (fun m r => weekMapAdd m (weekKeyOf r.timestamp) r.status) m).map Prod.fst) =
        (rs.map (fun r => weekKeyOf r.timestamp)).foldl
          (fun acc k => if k ∈ acc then acc else acc ++ [k]) (m.map Prod.fst) := by
  induction rs with
  | nil => intro m; rfl
  | cons r rest ih =>
    intro m
    show ((rest.foldl _ (weekMapAdd m (weekKeyOf r.timestamp) r.status)).map Prod.fst) = _
    rw [ih, List.map_cons, List.foldl_cons, weekMapAdd_keys]

/-- Keys of the built week map are the week keys in order of first occurrence. -/
theorem buildWeekMap_keys (records : List AttendanceRecord) :
    (buildWeekMap records).map Prod.fst =
      firstOccurrences (records.map (fun r => weekKeyOf r.timestamp)) :=
  foldl_weekMapAdd_keys records []

/-- First occurrences are drawn from the list. -/
theorem mem_firstOccurrences (l : List Int) (x : Int) (h : x ∈ firstOccurrences l) :
    x ∈ l := by
  have key : ∀ (l : List Int) (acc : List Int), x ∈ l.foldl
      (fun acc k => if k ∈ acc then acc else acc ++ [k]) acc → x ∈ acc ∨ x ∈ l := by
    intro l
    induction l with
    | nil => intro acc h0; exact Or.inl h0
    | cons k rest ih =>
      intro acc h0
      rcases ih _ h0 with h1 | h1
      · dsimp only at h1
        by_cases hk : k ∈ acc
        · rw [if_pos hk] at h1
          exact Or.inl h1
        · rw [if_neg hk] at h1
          rcases List.mem_append.mp h1 with h2 | h2
          · exact Or.inl h2
          · exact Or.inr (List.mem_cons.mpr (Or.inl (List.mem_singleton.mp h2)))
      · exact Or.inr (List.mem_cons.mpr (Or.inr h1))
  rcases key l [] h with h0 | h0
  · cases h0
  · exact h0

/-- The week key is the Sunday starting the record's week. -/
theorem weekKeyOf_sunday (d : Date) : (weekKeyOf d + 4).emod 7 = 0 := by
  show (d.day - (d.day + 4) % 7 + 4) % 7 = 0
  have h : d.day - (d.day + 4) % 7 + 4 = 7 * ((d.day + 4) / 7) := by omega
  rw [h, Int.mul_emod_right]

/-- C3 counterexample: two entries in chronologically increasing weeks (Sunday day 3 and
Sunday day 10) produce buckets [10, 3] — not in non-decreasing order — while the permuted
input produces [3, 10], so the emitted order depends on the input permutation. -/
theorem weekly_buckets_order_counterexample :
    (calculateWeeklyStats
      [⟨"s", ⟨3, 0⟩, Status.present, 1⟩, ⟨"s", ⟨10, 0⟩, Status.present, 1⟩]).map Prod.fst =
      [10, 3] ∧
    (calculateWeeklyStats
      [⟨"s", ⟨10, 0⟩, Status.present, 1⟩, ⟨"s", ⟨3, 0⟩, Status.present, 1⟩]).map Prod.fst =
      [3, 10] ∧
    ¬ List.Chain' (fun a b => a ≤ b)
      ((calculateWeeklyStats
        [⟨"s", ⟨3, 0⟩, Status.present, 1⟩, ⟨"s", ⟨10, 0⟩, Status.present, 1⟩]).map Prod.fst) ∧
    ¬ (calculateWeeklyStats
        [⟨"s", ⟨3, 0⟩, Status.present, 1⟩, ⟨"s", ⟨10, 0⟩, Status.present, 1⟩]).map Prod.fst =
      (calculateWeeklyStats
        [⟨"s", ⟨10, 0⟩, Status.present, 1⟩, ⟨"s", ⟨3, 0⟩, Status.present, 1⟩]).map Prod.fst := by
  have h1 : (calculateWeeklyStats
      [⟨"s", ⟨3, 0⟩, Status.present, 1⟩, ⟨"s", ⟨10, 0⟩, Status.present, 1⟩]).map Prod.fst =
      [10, 3] := by decide
  have h2 : (calculateWeeklyStats
      [⟨"s", ⟨10, 0⟩, Status.present, 1⟩, ⟨"s", ⟨3, 0⟩, Status.present, 1⟩]).map Prod.fst =
      [3, 10] := by decide
  refine ⟨h1, h2, ?_, ?_⟩
  · rw [h1]
    intro hc
    have hle := List.chain'_cons.mp hc
    omega
  · rw [h1, h2]
    intro hc
    have := List.head_eq_of_cons_eq hc
    omega

/-- C3 amended: entries are grouped into Sunday-start week buckets (each bucket key is a
Sunday and holds exactly the counts of the records of that week), but the buckets are
emitted in the reverse of the order in which each week first occurs in the input (after
keeping the last 8 in that order), so the output order follows input order rather than
chronology. -/
theorem weekly_buckets_sunday_grouping_and_emission_order (records : List AttendanceRecord) :
    (calculateWeeklyStats records).map Prod.fst =
      ((firstOccurrences (records.map (fun r => weekKeyOf r.timestamp))).drop
        ((firstOccurrences (records.map (fun r => weekKeyOf r.timestamp))).length - 8)).reverse ∧
    (∀ k : Int, weekGetD (buildWeekMap records) k = weekCountsOf records k) ∧
    (∀ p ∈ calculateWeeklyStats records, (p.1 + 4).emod 7 = 0) := by
  have hlen : (buildWeekMap records).length =
      (firstOccurrences (records.map (fun r => weekKeyOf r.timestamp))).length := by
    rw [← buildWeekMap_keys, List.length_map]
  refine ⟨?_, ?_, ?_⟩
  · show (((buildWeekMap records).drop ((buildWeekMap records).length - 8)).reverse).map
      Prod.fst = _
    rw [List.map_reverse, List.map_drop, buildWeekMap_keys, hlen]
  · exact buildWeekMap_getD records
  · intro p hp
    have hmem : p ∈ buildWeekMap records := by
      have h1 := List.mem_reverse.mp hp
      exact List.mem_of_mem_drop h1
    have hkey : p.1 ∈ (buildWeekMap records).map Prod.fst :=
      List.mem_map_of_mem Prod.fst hmem
    rw [buildWeekMap_keys] at hkey
    have h2 := mem_firstOccurrences _ _ hkey
    obtain ⟨r, _, hr⟩ := List.mem_map.mp h2
    rw [← hr]
    exact weekKeyOf_sunday r.timestamp

/-! ### Claim C10 -/

/-- Appending records keeps a student's records of the day available. -/
theorem mem_getTodayAttendance_markAttendance (db : DB) (now : Date)
    (r0 newRecord : AttendanceRecord) (h : r0 ∈ getTodayAttendance db now) :
    r0 ∈ getTodayAttendance (markAttendance db newRecord) now := by
  have hprop := List.mem_filter.mp h
  exact List.mem_filter.mpr ⟨List.mem_append.mpr (Or.inl hprop.1), hprop.2⟩

/-- C10: when today's stored attendance already has a record for the recognized student,
the single-capture flow returns an error and the stored collections unchanged; and the
bulk flow never appends another record for that student (their stored record count is
preserved through the whole loop) while still listing them in the result set. -/
theorem duplicate_marking_guard (db : DB) (now : Date) (student : Student) (conf : ℚ)
    (halready : ∃ r ∈ getTodayAttendance db now, r.studentId = student.id) :
    (3 / 4 < conf →
      captureAndRecognize db now (some student) conf =
        (db, { student := some student
               confidence := conf
               status := some ResultKind.error
               message := "Attendance already marked for today" })) ∧
    (∀ (status : Status) (recognized : List (Student × ℚ)),
      ((processRecognizedLoop now status db recognized).1.attendance.countP
          (fun r => decide (r.studentId = student.id)) =
        db.attendance.countP (fun r => decide (r.studentId = student.id))) ∧
      (∀ conf' : ℚ, (student, conf') ∈ recognized → 3 / 4 ≤ conf' →
        ({ student := student, confidence := conf', status := status } : MarkedStudent) ∈
          (processRecognizedLoop now status db recognized).2)) := by
  obtain ⟨r0, hr0mem, hr0sid⟩ := halready
  constructor
  · intro hconf
    have hfind : (getTodayAttendance db now).find?
        (fun r => decide (r.studentId = student.id)) ≠ none := by
      intro hnone
      have := List.find?_eq_none.mp hnone r0 hr0mem
      simp [hr0sid] at this
    simp only [captureAndRecognize, if_pos hconf]
    rcases hf : (getTodayAttendance db now).find?
        (fun r => decide (r.studentId = student.id)) with _ | rfound
    · exact absurd hf hfind
    · rw [hf]
  · intro status recognized
    induction recognized generalizing db with
    | nil =>
      constructor
      · rfl
      · intro conf' hmem
        cases hmem
    | cons p rest ih =>
      obtain ⟨st, conf0⟩ := p
      obtain ⟨r0', hr0mem', hr0sid'⟩ : ∃ r ∈ getTodayAttendance db now,
          r.studentId = student.id := ⟨r0, hr0mem, hr0sid⟩
      by_cases hc : 3 / 4 ≤ conf0
      · by_cases hdup : ((getTodayAttendance db now).find?
            (fun r => decide (r.studentId = st.id))).isSome
        · have hstep : processRecognizedLoop now status db ((st, conf0) :: rest) =
              ((processRecognizedLoop now status db rest).1,
                { student := st, confidence := conf0, status := status } ::
                  (processRecognizedLoop now status db rest).2) := by
            simp only [processRecognizedLoop, if_pos hc, if_pos hdup]
          obtain ⟨ihcount, ihmem⟩ := ih db hr0mem
          rw [hstep]
          constructor
          · exact ihcount
          · intro conf' hmem hconf'
            rcases List.mem_cons.mp hmem with hcase | hcase
            · have hst : st = student := (congrArg Prod.fst hcase).symm
              have hcf : conf0 = conf' := (congrArg Prod.snd hcase).symm
              exact List.mem_cons.mpr (Or.inl (by rw [hst, hcf]))
            · exact List.mem_cons.mpr (Or.inr (ihmem conf' hcase hconf'))
        · have hne : ¬ st.id = student.id := by
            intro heq
            apply hdup
            rw [List.find?_isSome]
            exact ⟨r0, hr0mem, by simp [hr0sid, heq]⟩
          have hstep : processRecognizedLoop now status db ((st, conf0) :: rest) =
              ((processRecognizedLoop now status
                  (markAttendance db
                    { studentId := st.id, timestamp := now, status := status,
                      confidence := conf0 }) rest).1,
                { student := st, confidence := conf0, status := status } ::
                  (processRecognizedLoop now status
                    (markAttendance db
                      { studentId := st.id, timestamp := now, status := status,
                        confidence := conf0 }) rest).2) := by
            simp only [processRecognizedLoop, if_pos hc, if_neg hdup]
          obtain ⟨ihcount, ihmem⟩ := ih (markAttendance db
            { studentId := st.id, timestamp := now, status := status, confidence := conf0 })
            (mem_getTodayAttendance_markAttendance db now r0 _ hr0mem)
          rw [hstep]
          constructor
          · rw [ihcount]
            simp [markAttendance, List.countP_append, hne]
          · intro conf' hmem hconf'
            rcases List.mem_cons.mp hmem with hcase | hcase
            · exfalso
              have hid : student.id = st.id := congrArg (fun q => q.1.id) hcase
              exact hne hid.symm
            · exact List.mem_cons.mpr (Or.inr (ihmem conf' hcase hconf'))
      · have hstep : processRecognizedLoop now status db ((st, conf0) :: rest) =
            processRecognizedLoop now status db rest := by
          simp only [processRecognizedLoop, if_neg hc]
        obtain ⟨ihcount, ihmem⟩ := ih db hr0mem
        rw [hstep]
        constructor
        · exact ihcount
        · intro conf' hmem hconf'
          rcases List.mem_cons.mp hmem with hcase | hcase
          · exfalso
            have hcc : conf' = conf0 := congrArg Prod.snd hcase
            rw [hcc] at hconf'
            exact hc hconf'
          · exact ihmem conf' hcase hconf'

/-- C10 witness: with one stored record for student s today, a capture recognizing s at
confidence 9/10 errors out leaving the store unchanged, and the bulk loop still lists s in
its result set. -/
theorem duplicate_marking_guard_witness :
    captureAndRecognize
      ⟨[⟨"s", "student"⟩], [⟨"s", ⟨0, 100⟩, Status.present, 1⟩]⟩ ⟨0, 200⟩
      (some ⟨"s", "student"⟩) (9 / 10) =
      (⟨[⟨"s", "student"⟩], [⟨"s", ⟨0, 100⟩, Status.present, 1⟩]⟩,
        { student := some ⟨"s", "student"⟩
          confidence := 9 / 10
          status := some ResultKind.error
          message := "Attendance already marked for today" }) ∧
    ({ student := ⟨"s", "student"⟩, confidence := 9 / 10,
        status := Status.present } : MarkedStudent) ∈
      (processRecognizedLoop ⟨0, 200⟩ Status.present
        ⟨[⟨"s", "student"⟩], [⟨"s", ⟨0, 100⟩, Status.present, 1⟩]⟩
        [(⟨"s", "student"⟩, 9 / 10)]).2 := by
  have hmem : (⟨"s", ⟨0, 100⟩, Status.present, 1⟩ : AttendanceRecord) ∈
      getTodayAttendance ⟨[⟨"s", "student"⟩], [⟨"s", ⟨0, 100⟩, Status.present, 1⟩]⟩ ⟨0, 200⟩ :=
    List.mem_filter.mpr ⟨List.mem_singleton.mpr rfl, by decide⟩
  have h := duplicate_marking_guard
    ⟨[⟨"s", "student"⟩], [⟨"s", ⟨0, 100⟩, Status.present, 1⟩]⟩ ⟨0, 200⟩
    ⟨"s", "student"⟩ (9 / 10) ⟨⟨"s", ⟨0, 100⟩, Status.present, 1⟩, hmem, rfl⟩
  refine ⟨h.1 (by norm_num), ?_⟩
  exact (h.2 Status.present [(⟨"s", "student"⟩, 9 / 10)]).2 (9 / 10)
    (List.mem_singleton.mpr rfl) (by norm_num)
